import Mathlib

/-!
Verification of the conversation engine in `chat_core.py` (ChatEngine):
mode normalization, the bounded session history, prompt assembly, the
completion-call fallback, and the system-prompt registry. Python lists
become Lean `List`, Python `int` becomes `Int`, dicts of prompts become
functions `String → Option String`, and the two external collaborators
(the OpenAI client and the Wikipedia lookup) become oracle parameters
recording the outcome of each external call.
-/

/-- A chat message, as the dicts `{"role": ..., "content": ...}` used
throughout `chat_core.py`. -/
structure Msg where
  role : String
  content : String
deriving DecidableEq, Repr

/-- ASCII model of Python `str.lower` on a single character. -/
def pyLowerChar (c : Char) : Char :=
  if 'A' ≤ c ∧ c ≤ 'Z' then Char.ofNat (c.toNat + 32) else c

/-- Python `str.lower` (ASCII fragment): lowercase every character. -/
def pyLower (s : String) : String :=
  ⟨s.data.map pyLowerChar⟩

/-- The characters Python `str.strip` removes by default. -/
def pyIsSpace (c : Char) : Bool :=
  c = ' ' || c = '\t' || c = '\n' || c = '\x0d' || c = '\x0b' || c = '\x0c'

/-- Python `str.strip`: drop whitespace from both ends. -/
def pyStrip (s : String) : String :=
  ⟨((s.data.dropWhile pyIsSpace).reverse.dropWhile pyIsSpace).reverse⟩

/-- Python `s[:n]` on a string: the first `n` characters. -/
def pyTake (s : String) (n : Nat) : String :=
  ⟨s.data.take n⟩

/-- `DEFAULT_SYSTEM_PROMPTS["chat"]` from `chat_core.py`. -/
def defaultChatPrompt : String :=
  "You are a friendly, concise AI assistant. Be helpful, honest, and " ++
  "avoid verbosity. Use simple language unless asked for detail."

/-- `DEFAULT_SYSTEM_PROMPTS["code"]` from `chat_core.py`. -/
def defaultCodePrompt : String :=
  "You are a senior software engineer. Provide precise, secure, and " ++
  "production-ready answers. Show minimal runnable examples. " ++
  "Mention time/space complexity when relevant."

/-- `DEFAULT_SYSTEM_PROMPTS["knowledge"]` from `chat_core.py`. -/
def defaultKnowledgePrompt : String :=
  "You are a factual knowledge assistant. When provided with external " ++
  "context (e.g., from Wikipedia), cite it naturally and separate facts " ++
  "from speculation. If uncertain, say so."

/-- The dict `DEFAULT_SYSTEM_PROMPTS` as a lookup function. -/
def DEFAULT_SYSTEM_PROMPTS : String → Option String := fun k =>
  if k = "chat" then some defaultChatPrompt
  else if k = "code" then some defaultCodePrompt
  else if k = "knowledge" then some defaultKnowledgePrompt
  else none

/-- The mutable fields of `ChatEngine`.  `messages` models the internal
`_messages` buffer; `system_prompts` models the prompt dict, where
`none` means the key is absent. -/
structure ChatEngine where
  model : String
  memory_size : Int
  system_prompts : String → Option String
  enable_wiki_in_knowledge_mode : Bool
  messages : List Msg

/-- `ChatEngine._normalize_mode`: `m = (mode or "").strip().lower()`,
then a synonym-table match falling through to `"chat"`.  The argument is
`Option String` so that a Python `None` can be passed. -/
def normalizeMode (mode : Option String) : String :=
  let m := pyLower (pyStrip (mode.getD ""))
  if m ∈ (["chat"] : List String) then "chat"
  else if m ∈ (["code", "code helper", "programming"] : List String) then "code"
  else if m ∈ (["knowledge", "facts", "knowledge assistant"] : List String) then "knowledge"
  else "chat"

/-- `ChatEngine._append_message` acting on the history list:
append, compute `overflow = max(0, len - memory_size)`, and delete the
first `overflow` entries. -/
def appendMessage (memory_size : Int) (hist : List Msg) (msg : Msg) : List Msg :=
  let h := hist ++ [msg]
  let overflow := max 0 ((h.length : Int) - memory_size)
  h.drop overflow.toNat

/-- Python list slice `hist[-n:]` for an `Int` index `n` as it arises in
`_build_model_messages` (where `n = memory_size - len(msgs)`): for
`n > 0` the last `n` elements; for `n = 0` the slice `[-0:] = [0:]` is
the whole list; for `n < 0` the slice `[(-n):]` drops `-n` from the
front. -/
def pyTailSlice (hist : List Msg) (n : Int) : List Msg :=
  if 0 < n then hist.drop (hist.length - n.toNat)
  else hist.drop (-n).toNat

/-- Python truthiness of an `Optional[str]`: `None` and `""` are falsy. -/
def truthy : Option String → Bool
  | none => false
  | some s => s ≠ ""

/-- `ChatEngine._build_model_messages`: one system message with the
mode's prompt, a second system message when `tool_context` is truthy,
then `self._messages[-(self.memory_size - len(msgs)):]`. -/
def buildModelMessages (memory_size : Int) (hist : List Msg)
    (system_prompt : String) (tool_context : Option String) : List Msg :=
  let msgs : List Msg := [⟨"system", system_prompt⟩]
  let msgs := if truthy tool_context then
      msgs ++ [⟨"system",
        "Use the following external context to answer. Cite it naturally " ++
        "when used.\n" ++ tool_context.getD ""⟩]
    else msgs
  msgs ++ pyTailSlice hist (memory_size - (msgs.length : Int))

/-- `ChatEngine._local_stub`: scan the assembled messages in reverse for
the most recent user-role message and echo its first 400 characters
behind a fixed prefix; empty echo when no user message exists. -/
def localStub (messages : List Msg) : String :=
  let last_user := ((messages.reverse.find? (fun m => m.role = "user")).map Msg.content).getD ""
  "[Local fallback] I can't reach the model. Echo: " ++ pyTake last_user 400

/-- Outcomes of the external calls made during one `respond` turn.
`hasOpenAI`/`clientIsSome` model `_HAS_OPENAI` and `self._client`;
`apiResult = none` models the completions call raising, and
`apiResult = some c` a successful call whose `message.content` is `c`
(itself optional, as in the SDK).  `hasWiki` models `_HAS_WIKI`;
`wikiResult = none` models `wiki_summary` raising, `some s` a returned
summary `s`. -/
structure Externals where
  hasOpenAI : Bool
  clientIsSome : Bool
  apiResult : Option (Option String)
  hasWiki : Bool
  wikiResult : Option String

/-- `ChatEngine._call_llm`: fall back to the local stub when the SDK is
absent or the client is `None`, or when the API call raises; otherwise
return `(content or "").strip()`. -/
def callLLM (ext : Externals) (messages : List Msg) : String :=
  if ext.hasOpenAI && ext.clientIsSome then
    match ext.apiResult with
    | none => localStub messages
    | some c => pyStrip (c.getD "")
  else localStub messages

/-- The `tool_context` computed by `ChatEngine.respond`: only in
knowledge mode with wiki enabled and importable, and only when the
summary is non-empty after stripping, is the formatted context block
attached; an exception from the lookup (`wikiResult = none`) leaves the
context absent. -/
def computeToolContext (mode_key : String) (enable : Bool)
    (ext : Externals) : Option String :=
  if mode_key = "knowledge" && enable && ext.hasWiki then
    match ext.wikiResult with
    | none => none
    | some summary =>
        if pyStrip summary ≠ "" then
          some ("\n[External Source: Wikipedia]\n" ++ pyStrip summary ++ "\n[End Source]\n")
        else none
  else none

/-- The message sequence `ChatEngine.respond` sends to `_call_llm`:
history after the user append, system prompt from the registry (with
the chat default), and the optional enrichment context. -/
def assembledMessages (ext : Externals) (eng : ChatEngine)
    (user_input : String) (mode : String) : List Msg :=
  let mode_key := normalizeMode (some mode)
  let system_prompt := (eng.system_prompts mode_key).getD defaultChatPrompt
  let hist1 := appendMessage eng.memory_size eng.messages ⟨"user", user_input⟩
  let tool_context := computeToolContext mode_key eng.enable_wiki_in_knowledge_mode ext
  buildModelMessages eng.memory_size hist1 system_prompt tool_context

/-- `ChatEngine.respond`: normalize the mode, look up the system prompt,
append the user message, optionally enrich, assemble, call the model
(or fall back), append the assistant reply, and return it. -/
def respond (ext : Externals) (eng : ChatEngine)
    (user_input : String) (mode : String) : String × ChatEngine :=
  let hist1 := appendMessage eng.memory_size eng.messages ⟨"user", user_input⟩
  let messages := assembledMessages ext eng user_input mode
  let reply := callLLM ext messages
  let hist2 := appendMessage eng.memory_size hist1 ⟨"assistant", reply⟩
  (reply, { eng with messages := hist2 })

/-- `ChatEngine.get_history`: `return list(self._messages)` — the value
of the returned copy together with the unchanged engine. -/
def getHistory (eng : ChatEngine) : List Msg × ChatEngine :=
  (eng.messages, eng)

/-- `ChatEngine.reset`: clear the history. -/
def resetEngine (eng : ChatEngine) : ChatEngine :=
  { eng with messages := [] }

/-- `ChatEngine.set_system_prompt`: `self.system_prompts[mode] = prompt`,
a dict upsert under the raw (unnormalized) key. -/
def setSystemPrompt (eng : ChatEngine) (mode prompt : String) : ChatEngine :=
  { eng with system_prompts := fun k =>
      if k = mode then some prompt else eng.system_prompts k }

/-- The system prompt `respond` uses for a given mode label. -/
def promptUsed (eng : ChatEngine) (mode : String) : String :=
  (eng.system_prompts (normalizeMode (some mode))).getD defaultChatPrompt

/-- Folding `_append_message` over a sequence of messages, starting from
the empty history an engine is constructed with. -/
def runAppends (memory_size : Int) (msgs : List Msg) : List Msg :=
  msgs.foldl (appendMessage memory_size) []

/-! ## A small object-heap model for the aliasing behavior of
`get_history`.  Python lists are mutable objects; `list(self._messages)`
allocates a new list object holding the same elements.  The heap maps
references to list values, and `nextRef` is the next fresh reference. -/

/-- A heap of Python list objects. -/
structure ListHeap where
  store : Nat → List Msg
  nextRef : Nat

/-- Read the list object a reference points to. -/
def readRef (h : ListHeap) (r : Nat) : List Msg :=
  h.store r

/-- Mutate the list object a reference points to (any in-place update of
a Python list). -/
def writeRef (h : ListHeap) (r : Nat) (v : List Msg) : ListHeap :=
  { h with store := fun q => if q = r then v else h.store q }

/-- Allocate a fresh list object with value `v`. -/
def allocList (h : ListHeap) (v : List Msg) : Nat × ListHeap :=
  (h.nextRef,
   { store := fun q => if q = h.nextRef then v else h.store q,
     nextRef := h.nextRef + 1 })

/-- `ChatEngine.get_history` at the heap level: `list(self._messages)`
allocates a fresh list object with the same elements as the internal
buffer `histRef` points to, and returns the new reference. -/
def getHistoryHeap (h : ListHeap) (histRef : Nat) : Nat × ListHeap :=
  allocList h (readRef h histRef)

/-! ## Concrete instances used by the witnesses -/

/-- An engine as built by `ChatEngine()` with the module defaults. -/
def defaultEngine : ChatEngine :=
  ⟨"gpt-4o-mini", 40, DEFAULT_SYSTEM_PROMPTS, true, []⟩

/-- An engine as built by `ChatEngine(memory_size=4)`. -/
def engineCap4 : ChatEngine :=
  ⟨"gpt-4o-mini", 4, DEFAULT_SYSTEM_PROMPTS, true, []⟩

/-- External-call outcomes when neither the OpenAI SDK nor the wikipedia
helper is importable: every completion call falls back locally. -/
def offlineExt : Externals :=
  ⟨false, false, none, false, none⟩

/-- External-call outcomes with a failing completion client and a
Wikipedia lookup that returns a whitespace-only summary. -/
def wikiEmptyExt : Externals :=
  ⟨false, false, none, true, some "   "⟩

/-- Reply of the first `respond` call in the capacity-4 scenario. -/
def c5Reply1 : String :=
  (respond offlineExt engineCap4 "first" "chat").1

/-- Engine state after the first `respond` call of the capacity-4
scenario. -/
def c5Engine1 : ChatEngine :=
  (respond offlineExt engineCap4 "first" "chat").2

/-- Engine state after the second `respond` call. -/
def c5Engine2 : ChatEngine :=
  (respond offlineExt c5Engine1 "second" "chat").2

/-- Engine state after the third `respond` call. -/
def c5Engine3 : ChatEngine :=
  (respond offlineExt c5Engine2 "third" "chat").2

/-! ## Helper lemmas -/

/-- The `overflow` computed by `_append_message` as a natural number of
dropped entries: for a positive capacity it is truncated subtraction. -/
theorem overflow_toNat (a : Nat) (ms : Int) (h : 0 < ms) :
    (max 0 ((a : Int) - ms)).toNat = a - ms.toNat := by omega

/-- For a positive capacity, `_append_message` keeps exactly the suffix
of the appended list that fits. -/
theorem appendMessage_eq_drop (ms : Int) (h : 0 < ms) (hist : List Msg) (m : Msg) :
    appendMessage ms hist m = (hist ++ [m]).drop ((hist.length + 1) - ms.toNat) := by
  show (hist ++ [m]).drop (max 0 (((hist ++ [m]).length : Int) - ms)).toNat
      = (hist ++ [m]).drop ((hist.length + 1) - ms.toNat)
  congr 1
  simp only [List.length_append, List.length_singleton]
  omega

/-- Running any sequence of appends from the empty history yields the
suffix of the input sequence that fits in the capacity: trimming always
removes oldest entries from the front. -/
theorem runAppends_eq_drop (ms : Int) (h : 0 < ms) (msgs : List Msg) :
    runAppends ms msgs = msgs.drop (msgs.length - ms.toNat) := by
  induction msgs using List.reverseRecOn with
  | nil => simp [runAppends]
  | append_singleton p m ih =>
      have hstep : runAppends ms (p ++ [m]) = appendMessage ms (runAppends ms p) m := by
        simp [runAppends, List.foldl_append]
      have hn : 1 ≤ ms.toNat := by omega
      rw [hstep, ih, appendMessage_eq_drop ms h]
      set q := List.drop (p.length - ms.toNat) p with hq
      have hql : q.length = p.length - (p.length - ms.toNat) := List.length_drop _ _
      rw [List.drop_append_of_le_length (by omega : q.length + 1 - ms.toNat ≤ q.length)]
      rw [show (p ++ [m]).length = p.length + 1 by simp]
      rw [List.drop_append_of_le_length (by omega : p.length + 1 - ms.toNat ≤ p.length)]
      rw [hq, List.drop_drop]
      have hcount : p.length - ms.toNat
            + ((List.drop (p.length - ms.toNat) p).length + 1 - ms.toNat)
          = p.length + 1 - ms.toNat := by
        simp only [List.length_drop]
        omega
      rw [hcount]

example : normalizeMode (some "Programming") = "code" := by decide
example : normalizeMode (some "banana") = "chat" := by decide
example : normalizeMode none = "chat" := by decide
example : normalizeMode (some "  FACTS \t") = "knowledge" := by decide
example : appendMessage 2 [⟨"user", "a"⟩, ⟨"assistant", "b"⟩] ⟨"user", "c"⟩
    = [⟨"assistant", "b"⟩, ⟨"user", "c"⟩] := by decide
example : (buildModelMessages 1 [⟨"user", "hi"⟩] "s" none).length = 2 := by decide
example : runAppends 3 [⟨"user", "1"⟩, ⟨"user", "2"⟩, ⟨"user", "3"⟩, ⟨"user", "4"⟩]
    = [⟨"user", "2"⟩, ⟨"user", "3"⟩, ⟨"user", "4"⟩] := by decide

/-- The slice `hist[-n:]` for positive `n` is the last `n` elements. -/
theorem pyTailSlice_of_pos (hist : List Msg) (n : Int) (h : 0 < n) :
    pyTailSlice hist n = hist.drop (hist.length - n.toNat) :=
  if_pos h

/-- The slice of an empty history is empty whatever the index. -/
theorem pyTailSlice_nil (n : Int) : pyTailSlice [] n = [] := by
  unfold pyTailSlice
  split <;> simp

/-- With no (or falsy) tool context the assembly is one system message
followed by the history slice at index `memory_size - 1`. -/
theorem buildModelMessages_none_eq (ms : Int) (hist : List Msg) (sp : String) :
    buildModelMessages ms hist sp none
      = ⟨"system", sp⟩ :: pyTailSlice hist (ms - 1) := by
  simp [buildModelMessages, truthy]

/-- Assembly splits into the system-message block (the assembly over the
empty history) and the history slice. -/
theorem buildModelMessages_decomp (ms : Int) (hist : List Msg) (sp : String)
    (tc : Option String) :
    buildModelMessages ms hist sp tc
      = buildModelMessages ms [] sp tc
          ++ pyTailSlice hist (ms - ((buildModelMessages ms [] sp tc).length : Int)) := by
  cases htc : truthy tc <;>
    simp [buildModelMessages, htc, pyTailSlice_nil]

/-- The system-message block has one entry, or two when the tool context
is truthy. -/
theorem buildModelMessages_nil_length (ms : Int) (sp : String) (tc : Option String) :
    (buildModelMessages ms [] sp tc).length = if truthy tc then 2 else 1 := by
  cases htc : truthy tc <;>
    simp [buildModelMessages, htc, pyTailSlice_nil]

/-- C1: for every ChatEngine capacity `memory_size > 0` and every
sequence of message appends via `_append_message` starting from the
empty history an engine is constructed with, the history length never
exceeds `memory_size`, and the resulting history is exactly the suffix
of the appended message sequence that fits: an overflowing append
removes the required number of oldest entries from the front, preserving
the relative order of the surviving messages. -/
theorem C1_history_bounded_trim (ms : Int) (h : 0 < ms) (msgs : List Msg) :
    (runAppends ms msgs).length ≤ ms.toNat ∧
    runAppends ms msgs = msgs.drop (msgs.length - ms.toNat) := by
  refine ⟨?_, runAppends_eq_drop ms h msgs⟩
  rw [runAppends_eq_drop ms h msgs]
  simp only [List.length_drop]
  omega

/-- Witness for C1: capacity 2, three appends — length 2, oldest entry
dropped. -/
theorem C1_history_bounded_trim_witness :
    (runAppends 2 [⟨"user", "a"⟩, ⟨"assistant", "b"⟩, ⟨"user", "c"⟩]).length ≤ (2 : Int).toNat ∧
    runAppends 2 [⟨"user", "a"⟩, ⟨"assistant", "b"⟩, ⟨"user", "c"⟩]
      = ([⟨"user", "a"⟩, ⟨"assistant", "b"⟩, ⟨"user", "c"⟩] : List Msg).drop
          (([⟨"user", "a"⟩, ⟨"assistant", "b"⟩, ⟨"user", "c"⟩] : List Msg).length - (2 : Int).toNat) :=
  C1_history_bounded_trim 2 (by decide) [⟨"user", "a"⟩, ⟨"assistant", "b"⟩, ⟨"user", "c"⟩]

/-- C2 counterexample: with capacity `memory_size = 1` and a one-message
history (reachable, since appends keep at most one message), the
assembled sequence has 2 messages — the total message count exceeds the
configured capacity, because Python's `[-0:]` slice keeps the whole
history when `memory_size - len(msgs) = 0`. -/
theorem C2_capacity_counterexample :
    ¬ ((buildModelMessages 1 [⟨"user", "hi"⟩] "s" none).length ≤ (1 : Int).toNat) := by
  decide

/-- C2 (amended): whenever the capacity strictly exceeds the number of
system messages added (1, or 2 with enrichment context), the assembled
sequence is the system block followed by the suffix of the history of
length `capacity - (number of system messages)` (shorter if the history
is shorter), and the total message count does not exceed the capacity.
For capacities at or below the system-message count the code keeps
history entries beyond the capacity instead. -/
theorem C2_assembly_bounded_amended (ms : Int) (hist : List Msg) (sp : String)
    (tc : Option String)
    (h : ((buildModelMessages ms [] sp tc).length : Int) < ms) :
    buildModelMessages ms hist sp tc
      = buildModelMessages ms [] sp tc
          ++ hist.drop (hist.length - (ms.toNat - (buildModelMessages ms [] sp tc).length))
    ∧ (buildModelMessages ms hist sp tc).length ≤ ms.toNat := by
  have hk := buildModelMessages_nil_length ms sp tc
  have hpos : (0 : Int) < ms - ((buildModelMessages ms [] sp tc).length : Int) := by omega
  have hdec := buildModelMessages_decomp ms hist sp tc
  rw [pyTailSlice_of_pos _ _ hpos] at hdec
  have htoNat : (ms - ((buildModelMessages ms [] sp tc).length : Int)).toNat
      = ms.toNat - (buildModelMessages ms [] sp tc).length := by omega
  rw [htoNat] at hdec
  refine ⟨hdec, ?_⟩
  rw [hdec]
  simp only [List.length_append, List.length_drop]
  cases htc : truthy tc <;> rw [htc] at hk <;> simp at hk <;> omega

/-- Witness for the amended C2: capacity 4, two history messages, no
context — system block of one message plus the whole two-message
history, three messages in total. -/
theorem C2_assembly_bounded_amended_witness :
    buildModelMessages 4 [⟨"user", "a"⟩, ⟨"assistant", "b"⟩] "s" none
      = buildModelMessages 4 [] "s" none
          ++ ([⟨"user", "a"⟩, ⟨"assistant", "b"⟩] : List Msg).drop
              (([⟨"user", "a"⟩, ⟨"assistant", "b"⟩] : List Msg).length
                - ((4 : Int).toNat - (buildModelMessages 4 [] "s" none).length))
    ∧ (buildModelMessages 4 [⟨"user", "a"⟩, ⟨"assistant", "b"⟩] "s" none).length ≤ (4 : Int).toNat :=
  C2_assembly_bounded_amended 4 [⟨"user", "a"⟩, ⟨"assistant", "b"⟩] "s" none (by decide)

/-- C3: `_normalize_mode` is total — it always returns one of the three
canonical modes; its result depends only on the stripped, lowercased
input; every input whose stripped, lowercased form lies outside the
recognized synonym sets yields `chat` (so every unmatched, empty, or
`None` input defaults); and the synonyms map to `code` and `knowledge`.
In particular `"Programming"` resolves to `code` and `"banana"` to
`chat`. -/
theorem C3_normalize_mode_total_canonical :
    (∀ mode : Option String, normalizeMode mode = "chat" ∨ normalizeMode mode = "code"
        ∨ normalizeMode mode = "knowledge")
  ∧ (∀ s t : String, pyLower (pyStrip s) = pyLower (pyStrip t) →
        normalizeMode (some s) = normalizeMode (some t))
  ∧ (∀ s : String, pyLower (pyStrip s) ∉
        (["chat", "code", "code helper", "programming",
          "knowledge", "facts", "knowledge assistant"] : List String) →
        normalizeMode (some s) = "chat")
  ∧ normalizeMode (some "programming") = "code"
  ∧ normalizeMode (some "code helper") = "code"
  ∧ normalizeMode (some "facts") = "knowledge"
  ∧ normalizeMode (some "knowledge assistant") = "knowledge"
  ∧ normalizeMode (some "Programming") = "code"
  ∧ normalizeMode (some "banana") = "chat"
  ∧ normalizeMode (some "") = "chat"
  ∧ normalizeMode none = "chat" := by
  refine ⟨?_, ?_, ?_, by decide, by decide, by decide, by decide, by decide, by decide,
    by decide, by decide⟩
  · intro mode
    simp only [normalizeMode]
    split_ifs <;> simp
  · intro s t hst
    show (fun m : String =>
        if m ∈ (["chat"] : List String) then "chat"
        else if m ∈ (["code", "code helper", "programming"] : List String) then "code"
        else if m ∈ (["knowledge", "facts", "knowledge assistant"] : List String) then "knowledge"
        else "chat") (pyLower (pyStrip s))
      = (fun m : String =>
        if m ∈ (["chat"] : List String) then "chat"
        else if m ∈ (["code", "code helper", "programming"] : List String) then "code"
        else if m ∈ (["knowledge", "facts", "knowledge assistant"] : List String) then "knowledge"
        else "chat") (pyLower (pyStrip t))
    exact congrArg (fun m : String =>
        if m ∈ (["chat"] : List String) then "chat"
        else if m ∈ (["code", "code helper", "programming"] : List String) then "code"
        else if m ∈ (["knowledge", "facts", "knowledge assistant"] : List String) then "knowledge"
        else "chat") hst
  · intro s hs
    simp only [normalizeMode, Option.getD_some]
    split_ifs with h1 h2 h3
    · rfl
    · exfalso
      apply hs
      simp only [List.mem_cons, List.mem_singleton] at h2 ⊢
      tauto
    · exfalso
      apply hs
      simp only [List.mem_cons, List.mem_singleton] at h3 ⊢
      tauto
    · rfl

/-- Witness for C3: the case-and-whitespace-insensitivity conjunct at a
concrete pair of labels, and the unmatched-input conjunct at a concrete
label outside every synonym set. -/
theorem C3_normalize_mode_witness :
    normalizeMode (some " BANANA ") = normalizeMode (some "banana")
    ∧ normalizeMode (some "zebra") = "chat" :=
  ⟨C3_normalize_mode_total_canonical.2.1 " BANANA " "banana" (by decide),
   C3_normalize_mode_total_canonical.2.2.1 "zebra" (by decide)⟩

/-- The local stub echoes the content of the last message when that
message has the user role. -/
theorem localStub_last_user (l : List Msg) (x : String) :
    localStub (l ++ [⟨"user", x⟩])
      = "[Local fallback] I can't reach the model. Echo: " ++ pyTake x 400 := by
  unfold localStub
  rw [List.reverse_append]
  simp

/-- When the SDK is missing, the client is `None`, or the API call
raises, `_call_llm` returns the local stub. -/
theorem callLLM_fail (ext : Externals) (messages : List Msg)
    (hfail : ext.hasOpenAI = false ∨ ext.clientIsSome = false ∨ ext.apiResult = none) :
    callLLM ext messages = localStub messages := by
  unfold callLLM
  rcases hfail with h | h | h
  · simp [h]
  · simp [h]
  · rw [h]
    split <;> rfl

/-- For a positive capacity the appended message always survives the
trim, so the new history ends with it. -/
theorem appendMessage_last (ms : Int) (h : 1 ≤ ms) (hist : List Msg) (m : Msg) :
    ∃ s, appendMessage ms hist m = s ++ [m] := by
  rw [appendMessage_eq_drop ms (by omega) hist m]
  exact ⟨hist.drop (hist.length + 1 - ms.toNat),
    List.drop_append_of_le_length (by omega)⟩

/-- A nonnegative tail slice of a list ending in `m` still ends in
`m`. -/
theorem pyTailSlice_last (l : List Msg) (m : Msg) (n : Int) (h : 0 ≤ n) :
    ∃ s, pyTailSlice (l ++ [m]) n = s ++ [m] := by
  unfold pyTailSlice
  split
  · refine ⟨l.drop ((l ++ [m]).length - n.toNat), List.drop_append_of_le_length ?_⟩
    simp only [List.length_append, List.length_singleton]
    omega
  · have hz : n = 0 := by omega
    subst hz
    exact ⟨l, by simp⟩

/-- In chat mode the assembled sequence ends with the just-appended user
message (the capacity must cover at least that one message). -/
theorem assembledMessages_chat_last (ext : Externals) (eng : ChatEngine) (x : String)
    (hms : 1 ≤ eng.memory_size) :
    ∃ l, assembledMessages ext eng x "chat" = l ++ [(⟨"user", x⟩ : Msg)] := by
  obtain ⟨s₀, hs₀⟩ := appendMessage_last eng.memory_size hms eng.messages ⟨"user", x⟩
  have hnorm : normalizeMode (some "chat") = "chat" := by decide
  have hctx : computeToolContext (normalizeMode (some "chat"))
      eng.enable_wiki_in_knowledge_mode ext = none := by
    rw [hnorm]
    simp [computeToolContext]
  simp only [assembledMessages]
  rw [hctx, buildModelMessages_none_eq, hs₀]
  obtain ⟨s₁, hs₁⟩ :=
    pyTailSlice_last s₀ ⟨"user", x⟩ (eng.memory_size - 1) (by omega)
  rw [hs₁]
  exact ⟨⟨"system", (eng.system_prompts (normalizeMode (some "chat"))).getD defaultChatPrompt⟩ :: s₁,
    by simp⟩

/-- Without a user-role message anywhere, the stub echoes nothing. -/
theorem localStub_no_user (msgs : List Msg) (h : ∀ m ∈ msgs, m.role ≠ "user") :
    localStub msgs = "[Local fallback] I can't reach the model. Echo: " := by
  unfold localStub
  have hnone : msgs.reverse.find? (fun m => m.role = "user") = none := by
    rw [List.find?_eq_none]
    intro m hm
    simp [h m (List.mem_reverse.mp hm)]
  rw [hnone]
  decide

/-- C4: whenever the completion client is unavailable or its call fails,
`respond` returns the local fallback string built from the assembled
message sequence — the fixed prefix plus the first 400 characters of the
most recent user-role message, scanning in reverse (empty echo when no
user message exists), and this path never raises.  For `respond(x,
"chat")` the most recent user message is the just-appended `x`, so the
reply contains `x` truncated to 400 characters. -/
theorem C4_fallback_echo (ext : Externals) (eng : ChatEngine) (x : String)
    (hms : 1 ≤ eng.memory_size)
    (hfail : ext.hasOpenAI = false ∨ ext.clientIsSome = false ∨ ext.apiResult = none) :
    (∀ mode, (respond ext eng x mode).1 = localStub (assembledMessages ext eng x mode))
    ∧ (∀ msgs, (∀ m ∈ msgs, m.role ≠ "user") → localStub msgs
        = "[Local fallback] I can't reach the model. Echo: ")
    ∧ (respond ext eng x "chat").1
      = "[Local fallback] I can't reach the model. Echo: " ++ pyTake x 400 := by
  refine ⟨fun mode => callLLM_fail ext _ hfail, localStub_no_user, ?_⟩
  obtain ⟨l, hl⟩ := assembledMessages_chat_last ext eng x hms
  show callLLM ext (assembledMessages ext eng x "chat") = _
  rw [callLLM_fail ext _ hfail, hl, localStub_last_user]

/-- Witness for C4: the default engine with no OpenAI SDK echoes the
user input. -/
theorem C4_fallback_echo_witness :
    (respond offlineExt defaultEngine "hello world" "chat").1
      = "[Local fallback] I can't reach the model. Echo: " ++ pyTake "hello world" 400 :=
  (C4_fallback_echo offlineExt defaultEngine "hello world" (by decide) (Or.inl rfl)).2.2

/-- C5: with capacity 4 and an empty history, three `respond` calls
(each appending one user and one assistant message) leave a history of
exactly 4 messages from which both messages of the first call — the
user message and the assistant reply it produced — are absent. -/
theorem C5_capacity4_scenario :
    c5Engine1.messages.length = 2
    ∧ c5Engine2.messages.length = 4
    ∧ (getHistory c5Engine3).1.length = 4
    ∧ (⟨"user", "first"⟩ : Msg) ∉ (getHistory c5Engine3).1
    ∧ (⟨"assistant", c5Reply1⟩ : Msg) ∉ (getHistory c5Engine3).1 := by
  decide

/-- C6: the prompt-registry round-trip — `set_system_prompt(mode, text)`
followed by the lookup `respond` performs (`system_prompts.get` with the
chat default) returns exactly `text`, for every mode key and every
previous registry content: the upsert silently overwrites. -/
theorem C6_prompt_roundtrip (eng : ChatEngine) (mode text : String) :
    (setSystemPrompt eng mode text).system_prompts mode = some text
    ∧ ((setSystemPrompt eng mode text).system_prompts mode).getD defaultChatPrompt = text := by
  simp [setSystemPrompt]

/-- Whatever survives the slice was already in the sliced history. -/
theorem mem_of_mem_pyTailSlice {a : Msg} {l : List Msg} {n : Int}
    (h : a ∈ pyTailSlice l n) : a ∈ l := by
  unfold pyTailSlice at h
  split at h <;> exact List.mem_of_mem_drop h

/-- Whatever survives `_append_message` was in the history or is the
appended message. -/
theorem mem_of_mem_appendMessage {a m : Msg} {ms : Int} {hist : List Msg}
    (h : a ∈ appendMessage ms hist m) : a ∈ hist ++ [m] :=
  List.mem_of_mem_drop h

/-- C7: enrichment fails soft — in knowledge mode, if the Wikipedia
lookup raises or returns a string that is empty after stripping, no
enrichment context is attached and the assembled sequence contains
exactly one system message; the turn proceeds (no exception escapes
`respond`, which is total here). -/
theorem C7_enrichment_fails_soft (ext : Externals) (eng : ChatEngine) (x mode : String)
    (hmode : normalizeMode (some mode) = "knowledge")
    (hfail : ext.wikiResult = none ∨ ∃ s, ext.wikiResult = some s ∧ pyStrip s = "")
    (hclean : ∀ m ∈ eng.messages, m.role ≠ "system") :
    computeToolContext (normalizeMode (some mode))
        eng.enable_wiki_in_knowledge_mode ext = none
    ∧ (assembledMessages ext eng x mode).countP (fun m => m.role = "system") = 1 := by
  have hctx : computeToolContext (normalizeMode (some mode))
      eng.enable_wiki_in_knowledge_mode ext = none := by
    unfold computeToolContext
    rcases hfail with h | ⟨s, hs, hstrip⟩
    · rw [h]
      split <;> rfl
    · rw [hs]
      split
      · simp [hstrip]
      · rfl
  refine ⟨hctx, ?_⟩
  simp only [assembledMessages]
  rw [hctx, buildModelMessages_none_eq]
  rw [List.countP_cons]
  have hz : (pyTailSlice
      (appendMessage eng.memory_size eng.messages ⟨"user", x⟩)
      (eng.memory_size - 1)).countP (fun m => m.role = "system") = 0 := by
    rw [List.countP_eq_zero]
    intro a ha
    have ha1 := mem_of_mem_appendMessage (mem_of_mem_pyTailSlice ha)
    rcases List.mem_append.mp ha1 with h | h
    · simp [hclean a h]
    · rw [List.mem_singleton.mp h]
      simp
  rw [hz]
  simp

/-- Witness for C7: knowledge mode on the default engine with a
whitespace-only summary — no context, exactly one system message. -/
theorem C7_enrichment_fails_soft_witness :
    computeToolContext (normalizeMode (some "knowledge"))
        defaultEngine.enable_wiki_in_knowledge_mode wikiEmptyExt = none
    ∧ (assembledMessages wikiEmptyExt defaultEngine "Taj Mahal" "knowledge").countP
        (fun m => m.role = "system") = 1 :=
  C7_enrichment_fails_soft wikiEmptyExt defaultEngine "Taj Mahal" "knowledge"
    (by decide) (Or.inr ⟨"   ", rfl, by decide⟩)
    (fun m hm => absurd hm (List.not_mem_nil m))

/-- C8: prompt assembly is deterministic — two invocations of
`_build_model_messages` with equal capacities, equal system prompts,
equal enrichment contexts (same presence and content) and equal history
contents produce exactly equal message sequences. -/
theorem C8_build_deterministic (ms ms' : Int) (hist hist' : List Msg)
    (sp sp' : String) (tc tc' : Option String)
    (hms : ms = ms') (hh : hist = hist') (hsp : sp = sp') (htc : tc = tc') :
    buildModelMessages ms hist sp tc = buildModelMessages ms' hist' sp' tc' := by
  subst hms; subst hh; subst hsp; subst htc; rfl

/-- Witness for C8 at concrete equal inputs. -/
theorem C8_build_deterministic_witness :
    buildModelMessages 40 [⟨"user", "q"⟩] "p" (some "ctx")
      = buildModelMessages 40 [⟨"user", "q"⟩] "p" (some "ctx") :=
  C8_build_deterministic 40 40 [⟨"user", "q"⟩] [⟨"user", "q"⟩] "p" "p"
    (some "ctx") (some "ctx") rfl rfl rfl rfl

/-- C9: `get_history` returns a copy — at the pure level the returned
list equals the internal history element-for-element and in order and
the engine is unchanged; at the heap level the fresh list object is a
distinct reference with equal contents, and mutating it afterwards
leaves the engine's internal list untouched. -/
theorem C9_get_history_copy (eng : ChatEngine) (h : ListHeap) (histRef : Nat)
    (hlt : histRef < h.nextRef) :
    (getHistory eng).1 = eng.messages
    ∧ (getHistory eng).2 = eng
    ∧ readRef (getHistoryHeap h histRef).2 (getHistoryHeap h histRef).1
        = readRef h histRef
    ∧ readRef (getHistoryHeap h histRef).2 histRef = readRef h histRef
    ∧ (getHistoryHeap h histRef).1 ≠ histRef
    ∧ ∀ v, readRef (writeRef (getHistoryHeap h histRef).2 (getHistoryHeap h histRef).1 v)
        histRef = readRef h histRef := by
  have hne : histRef ≠ h.nextRef := Nat.ne_of_lt hlt
  refine ⟨rfl, rfl, ?_, ?_, ?_, ?_⟩
  · simp [getHistoryHeap, allocList, readRef]
  · simp [getHistoryHeap, allocList, readRef, hne]
  · exact fun hcontra => hne hcontra.symm
  · intro v
    simp [getHistoryHeap, allocList, readRef, writeRef, hne]

/-- Witness for C9 on a one-object heap. -/
theorem C9_get_history_copy_witness :
    (getHistory defaultEngine).1 = defaultEngine.messages
    ∧ (getHistory defaultEngine).2 = defaultEngine
    ∧ readRef (getHistoryHeap ⟨fun _ => [], 1⟩ 0).2 (getHistoryHeap ⟨fun _ => [], 1⟩ 0).1
        = readRef ⟨fun _ => [], 1⟩ 0
    ∧ readRef (getHistoryHeap ⟨fun _ => [], 1⟩ 0).2 0 = readRef ⟨fun _ => [], 1⟩ 0
    ∧ (getHistoryHeap ⟨fun _ => [], 1⟩ 0).1 ≠ 0
    ∧ ∀ v, readRef (writeRef (getHistoryHeap ⟨fun _ => [], 1⟩ 0).2
        (getHistoryHeap ⟨fun _ => [], 1⟩ 0).1 v) 0 = readRef ⟨fun _ => [], 1⟩ 0 :=
  C9_get_history_copy defaultEngine ⟨fun _ => [], 1⟩ 0 (by decide)

/-- C10: `set_system_prompt` stores the prompt under the raw label while
`respond` looks up the normalized mode: for a label that normalization
does not fix (a non-canonical synonym, or a label differing in case or
whitespace), the override is stored but the prompt `respond` uses for
that same label is unchanged — the override is never consulted. -/
theorem C10_override_never_consulted (eng : ChatEngine) (label p : String)
    (hsyn : normalizeMode (some label) ≠ label) :
    (setSystemPrompt eng label p).system_prompts label = some p
    ∧ (setSystemPrompt eng label p).system_prompts (normalizeMode (some label))
        = eng.system_prompts (normalizeMode (some label))
    ∧ promptUsed (setSystemPrompt eng label p) label = promptUsed eng label := by
  refine ⟨by simp [setSystemPrompt], ?_, ?_⟩
  · simp [setSystemPrompt, hsyn]
  · simp [promptUsed, setSystemPrompt, hsyn]

/-- Witness for C10: the synonym label "programming" normalizes to
"code", so an override stored under "programming" is ignored by
`respond`. -/
theorem C10_override_never_consulted_witness :
    (setSystemPrompt defaultEngine "programming" "override").system_prompts "programming"
        = some "override"
    ∧ (setSystemPrompt defaultEngine "programming" "override").system_prompts
        (normalizeMode (some "programming"))
        = defaultEngine.system_prompts (normalizeMode (some "programming"))
    ∧ promptUsed (setSystemPrompt defaultEngine "programming" "override") "programming"
        = promptUsed defaultEngine "programming" :=
  C10_override_never_consulted defaultEngine "programming" "override" (by decide)
